import Mathlib

/-!
Shallow embedding of the window/desktop state machine of the "Project Atlas"
desktop environment (src/components/desktop/DesktopView.tsx), together with
proofs about its window-lifecycle operations.

The React component DesktopView keeps the state relevant here in four pieces:
windows (a string-keyed JavaScript object of window records), activeId,
nextZIndex and activeDesktopId.  JavaScript objects are modelled as
association lists with object-spread update semantics.  Because
updateWindowState can build a record by spreading an undefined value
(when called with an id that is not a key of the store), every field of a
stored record can be absent at runtime; record fields are therefore
modelled as Option, with none standing for a JS undefined field.
-/

namespace Atlas

/-- Pixel position, the position field of a WindowState record. -/
structure Pos where
  x : Int
  y : Int
  deriving DecidableEq

/-- Pixel size, the size field of a WindowState record. -/
structure Size where
  width : Int
  height : Int
  deriving DecidableEq

/-- A window record as stored in the windows object of DesktopView.  Each
field is Option because a JS object built by spreading a partial update over
an undefined base (updateWindowState on an absent id) lacks the other
fields. -/
structure WindowObj where
  id : Option String := none
  position : Option Pos := none
  size : Option Size := none
  zIndex : Option Nat := none
  isMinimized : Option Bool := none
  isMaximized : Option Bool := none
  isResizing : Option Bool := none
  isDragging : Option Bool := none
  desktopId : Option String := none
  opacity : Option Int := none
  deriving DecidableEq

/-- Lookup of a key in the windows object (prev[id]). -/
def getW : List (String × WindowObj) → String → Option WindowObj
  | [], _ => none
  | (k, v) :: rest, key => if k = key then some v else getW rest key

/-- Key assignment by object spread ( \x7b...prev, [id]: v\x7d ): an existing
key keeps its place in the object, a new key is appended. -/
def setW : List (String × WindowObj) → String → WindowObj → List (String × WindowObj)
  | [], key, v => [(key, v)]
  | (k, w) :: rest, key, v =>
      if k = key then (key, v) :: rest else (k, w) :: setW rest key v

/-- Key removal (delete copy[id]). -/
def delW (l : List (String × WindowObj)) (key : String) : List (String × WindowObj) :=
  l.filter (fun p => p.1 != key)

/-- Z_INDEX_BASE constant of DesktopView. -/
def Z_INDEX_BASE : Nat := 10

/-- The DesktopView state touched by the window-management callbacks. -/
structure DesktopState where
  windows : List (String × WindowObj)
  activeId : Option String
  nextZIndex : Nat
  activeDesktopId : String
  deriving DecidableEq

/-- Initial DesktopView state: no windows, no active id, nextZIndex at
Z_INDEX_BASE, and the active desktop of VirtualDesktopService, desktop-1. -/
def initState : DesktopState :=
  { windows := [], activeId := none, nextZIndex := Z_INDEX_BASE,
    activeDesktopId := "desktop-1" }

/-- The openWindow callback of DesktopView (openOrRestore).  One UI event:
setNextZIndex(prev => prev + 1), setActiveId(featureId), and setWindows with
either the restore branch (existing record: spread, clear isMinimized, fresh
zIndex, re-pin to the active desktop) or the create branch (fresh record with
staggered default position).  The captured nextZIndex is the pre-event value,
so the assigned zIndex equals the post-event counter. -/
def openWindow (s : DesktopState) (featureId : String) : DesktopState :=
  { s with
    nextZIndex := s.nextZIndex + 1,
    activeId := some featureId,
    windows :=
      match getW s.windows featureId with
      | some w =>
          setW s.windows featureId
            { w with isMinimized := some false, zIndex := some (s.nextZIndex + 1),
                     desktopId := some s.activeDesktopId }
      | none =>
          setW s.windows featureId
            { id := some featureId,
              position := some ⟨50 + (s.windows.length : Int) * 20,
                                50 + (s.windows.length : Int) * 20⟩,
              size := some ⟨800, 600⟩,
              zIndex := some (s.nextZIndex + 1),
              isMinimized := some false, isMaximized := some false,
              isResizing := some false, isDragging := some false,
              desktopId := some s.activeDesktopId, opacity := some 1 } }

/-- The closeWindow callback: delete the record; activeId and nextZIndex are
untouched. -/
def closeWindow (s : DesktopState) (id : String) : DesktopState :=
  { s with windows := delW s.windows id }

/-- The onMinimize handler of a rendered window: spread the record and set
isMinimized.  The handler exists only for rendered (present) windows; on an
absent key the JS spread of undefined would produce a record holding only
isMinimized, which the getD base reproduces. -/
def minimizeWindow (s : DesktopState) (id : String) : DesktopState :=
  { s with
    windows := setW s.windows id
      { (getW s.windows id).getD {} with isMinimized := some true } }

/-- The onMaximize handler (maximizeToggle), parameterised by the viewport
(window.innerWidth, window.innerHeight).  It reads p[win.id].isMaximized, so
it is only ever invoked on a present id (the handler is attached to rendered
windows); the absent case is modelled as no change. -/
def maximizeWindow (s : DesktopState) (vw vh : Int) (id : String) : DesktopState :=
  match getW s.windows id with
  | none => s
  | some w =>
      { s with
        windows := setW s.windows id
          { w with
            isMaximized := some (!(w.isMaximized.getD false)),
            size := some (if !(w.isMaximized.getD false) then ⟨vw, vh - 60⟩
                          else ⟨800, 600⟩),
            position := some (if !(w.isMaximized.getD false) then ⟨0, 0⟩
                              else ⟨50, 50⟩) } }

/-- The onFocus handler: setActiveId(win.id), assign a fresh zIndex to the
record, and bump nextZIndex. -/
def focusWindow (s : DesktopState) (id : String) : DesktopState :=
  { s with
    activeId := some id,
    windows := setW s.windows id
      { (getW s.windows id).getD {} with zIndex := some (s.nextZIndex + 1) },
    nextZIndex := s.nextZIndex + 1 }

/-- A partial update as passed to updateWindowState (the updateGeometry
surface: position, size and the dragging flag). -/
structure WindowUpdates where
  position : Option Pos := none
  size : Option Size := none
  isDragging : Option Bool := none
  deriving DecidableEq

/-- JS object spread of an update over a record: a field present in the
update overrides, an absent one keeps the base value. -/
def applyUpdates (w : WindowObj) (u : WindowUpdates) : WindowObj :=
  { w with
    position := match u.position with | some p => some p | none => w.position,
    size := match u.size with | some z => some z | none => w.size,
    isDragging := match u.isDragging with | some b => some b | none => w.isDragging }

/-- The updateWindowState callback:
setWindows(prev => ( \x7b...prev, [id]: \x7b...prev[id], ...updates\x7d\x7d )).
When id is absent, prev[id] is undefined and the spread base is the empty
object, so a fresh partial record is inserted under id. -/
def updateWindowState (s : DesktopState) (id : String) (u : WindowUpdates) : DesktopState :=
  { s with windows := setW s.windows id (applyUpdates ((getW s.windows id).getD {}) u) }

/-- The rendering filter of DesktopView:
Object.values(windows).filter(w => !w.isMinimized && w.desktopId === activeDesktopId).
JS truthiness: an undefined isMinimized counts as not minimized, an undefined
desktopId is never strictly equal to a string. -/
def getVisibleWindows (windows : List (String × WindowObj)) (activeDesktopId : String) :
    List WindowObj :=
  (windows.map Prod.snd).filter
    (fun w => (!(w.isMinimized.getD false)) && (w.desktopId == some activeDesktopId))

/-- A virtual desktop of VirtualDesktopService. -/
structure VirtualDesktop where
  id : String
  name : String
  wallpaperUrl : String
  widgets : List String
  deriving DecidableEq

/-- The fixed desktop registry built in the VirtualDesktopService
constructor. -/
def initialDesktops : List VirtualDesktop :=
  [{ id := "desktop-1", name := "Main Workspace",
     wallpaperUrl := "https://picsum.photos/1920/1080?random=1", widgets := [] },
   { id := "desktop-2", name := "Financial Analysis",
     wallpaperUrl := "https://picsum.photos/1920/1080?random=2", widgets := [] }]

/-- The mutable state of VirtualDesktopService: its desktop list (never
mutated by any code path) and the active desktop id. -/
structure VDServiceState where
  desktops : List VirtualDesktop
  activeDesktopId : String
  deriving DecidableEq

/-- VirtualDesktopService.setActiveDesktop: change the active id only when
the id is a registered desktop and differs from the current one. -/
def setActiveDesktop (st : VDServiceState) (id : String) : VDServiceState :=
  if (st.desktops.any (fun d => d.id == id)) && (st.activeDesktopId != id) then
    { st with activeDesktopId := id }
  else st

/-- Desktop switching as observed by DesktopView: the Taskbar calls
VirtualDesktopService.setActiveDesktop against the fixed registry and the
subscription copies getActiveDesktopId() into the component state. -/
def switchDesktop (s : DesktopState) (id : String) : DesktopState :=
  if (initialDesktops.any (fun d => d.id == id)) && (s.activeDesktopId != id) then
    { s with activeDesktopId := id }
  else s

/-! Association-list lemmas about the JS-object operations. -/

lemma getW_setW_self (l : List (String × WindowObj)) (k : String) (v : WindowObj) :
    getW (setW l k v) k = some v := by
  induction l with
  | nil => simp [setW, getW]
  | cons p rest ih =>
      obtain ⟨k', w⟩ := p
      by_cases h : k' = k
      · simp [setW, h, getW]
      · simp [setW, h, getW, ih]

lemma getW_setW_ne (l : List (String × WindowObj)) (k j : String) (v : WindowObj)
    (h : j ≠ k) : getW (setW l k v) j = getW l j := by
  induction l with
  | nil => simp [setW, getW, Ne.symm h]
  | cons p rest ih =>
      obtain ⟨k', w⟩ := p
      by_cases hk : k' = k
      · subst hk
        simp [setW, getW, Ne.symm h]
      · simp only [setW, if_neg hk, getW]
        by_cases hj : k' = j
        · simp [hj]
        · simp [hj, ih]

lemma mem_setW {l : List (String × WindowObj)} {k : String} {v : WindowObj}
    {p : String × WindowObj} (h : p ∈ setW l k v) : p = (k, v) ∨ p ∈ l := by
  induction l with
  | nil => simpa [setW] using h
  | cons q rest ih =>
      obtain ⟨k', w⟩ := q
      by_cases hk : k' = k
      · simp only [setW, if_pos hk, List.mem_cons] at h
        rcases h with h | h
        · exact Or.inl h
        · exact Or.inr (List.mem_cons_of_mem _ h)
      · simp only [setW, if_neg hk, List.mem_cons] at h
        rcases h with h | h
        · exact Or.inr (by simp [h])
        · rcases ih h with h' | h'
          · exact Or.inl h'
          · exact Or.inr (List.mem_cons_of_mem _ h')

lemma mem_keys_setW {l : List (String × WindowObj)} {k j : String} {v : WindowObj}
    (h : j ∈ (setW l k v).map Prod.fst) : j = k ∨ j ∈ l.map Prod.fst := by
  rcases List.mem_map.mp h with ⟨p, hp, hpj⟩
  rcases mem_setW hp with rfl | hpl
  · exact Or.inl hpj.symm
  · exact Or.inr (List.mem_map.mpr ⟨p, hpl, hpj⟩)

lemma keys_setW_nodup {l : List (String × WindowObj)} {k : String} {v : WindowObj}
    (h : (l.map Prod.fst).Nodup) : ((setW l k v).map Prod.fst).Nodup := by
  induction l with
  | nil => simp [setW]
  | cons p rest ih =>
      obtain ⟨k', w⟩ := p
      simp only [List.map_cons, List.nodup_cons] at h
      by_cases hk : k' = k
      · subst hk
        simpa [setW, List.nodup_cons] using h
      · simp only [setW, if_neg hk, List.map_cons, List.nodup_cons]
        refine ⟨fun hmem => ?_, ih h.2⟩
        rcases mem_keys_setW hmem with h' | h'
        · exact hk h'
        · exact h.1 h'

lemma mem_setW_nodup {l : List (String × WindowObj)} {k : String} {v : WindowObj}
    {p : String × WindowObj} (hnd : (l.map Prod.fst).Nodup) (h : p ∈ setW l k v) :
    p = (k, v) ∨ (p ∈ l ∧ p.1 ≠ k) := by
  induction l with
  | nil => simpa [setW] using h
  | cons q rest ih =>
      obtain ⟨k', w⟩ := q
      simp only [List.map_cons, List.nodup_cons] at hnd
      by_cases hk : k' = k
      · subst hk
        rw [show setW ((k', w) :: rest) k' v = (k', v) :: rest by simp [setW]] at h
        rcases List.mem_cons.mp h with hh | hh
        · exact Or.inl hh
        · refine Or.inr ⟨List.mem_cons_of_mem _ hh, fun hpk => ?_⟩
          exact hnd.1 (hpk ▸ List.mem_map.mpr ⟨p, hh, rfl⟩)
      · rw [show setW ((k', w) :: rest) k v = (k', w) :: setW rest k v by
              simp [setW, hk]] at h
        rcases List.mem_cons.mp h with hh | hh
        · exact Or.inr ⟨by rw [hh]; exact List.mem_cons_self _ _, by simp [hh, hk]⟩
        · rcases ih hnd.2 hh with h' | h'
          · exact Or.inl h'
          · exact Or.inr ⟨List.mem_cons_of_mem _ h'.1, h'.2⟩

lemma getW_mem {l : List (String × WindowObj)} {k : String} {v : WindowObj}
    (h : getW l k = some v) : (k, v) ∈ l := by
  induction l with
  | nil => simp [getW] at h
  | cons p rest ih =>
      obtain ⟨k', w⟩ := p
      by_cases hk : k' = k
      · subst hk
        rw [show getW ((k', w) :: rest) k' = some w by simp [getW]] at h
        rw [Option.some.injEq] at h
        subst h
        exact List.mem_cons_self _ _
      · simp only [getW, if_neg hk] at h
        exact List.mem_cons_of_mem _ (ih h)

lemma getW_eq_none {l : List (String × WindowObj)} {k : String} :
    getW l k = none ↔ k ∉ l.map Prod.fst := by
  induction l with
  | nil => simp [getW]
  | cons p rest ih =>
      obtain ⟨k', w⟩ := p
      by_cases hk : k' = k
      · subst hk
        simp [getW]
      · simp [getW, hk, ih, Ne.symm hk]

lemma mem_delW {l : List (String × WindowObj)} {k : String} {p : String × WindowObj} :
    p ∈ delW l k ↔ p ∈ l ∧ p.1 ≠ k := by
  simp [delW, List.mem_filter]

lemma keys_delW_nodup {l : List (String × WindowObj)} {k : String}
    (h : (l.map Prod.fst).Nodup) : ((delW l k).map Prod.fst).Nodup :=
  h.sublist ((List.filter_sublist l).map Prod.fst)

lemma getW_delW_self (l : List (String × WindowObj)) (k : String) :
    getW (delW l k) k = none := by
  cases hx : getW (delW l k) k with
  | none => rfl
  | some v => exact absurd rfl (mem_delW.mp (getW_mem hx)).2

lemma delW_cons (p : String × WindowObj) (rest : List (String × WindowObj)) (k : String) :
    delW (p :: rest) k = if p.1 = k then delW rest k else p :: delW rest k := by
  by_cases hk : p.1 = k
  · simp [delW, List.filter_cons, hk]
  · simp [delW, List.filter_cons, hk]

lemma getW_delW_ne (l : List (String × WindowObj)) (k j : String) (h : j ≠ k) :
    getW (delW l k) j = getW l j := by
  induction l with
  | nil => simp [delW]
  | cons p rest ih =>
      obtain ⟨k', w⟩ := p
      rw [delW_cons]
      by_cases hk : k' = k
      · have hkj : k' ≠ j := fun hj => h (hj ▸ hk)
        simp [hk, getW, hkj, Ne.symm h, ih]
      · by_cases hj : k' = j
        · simp [hk, getW, hj, h]
        · simp [hk, getW, hj, ih]

/-! Invariant machinery for the z-order claims. -/

/-- Keys of the windows object are pairwise distinct (true of every JS
object). -/
def NodupKeys (s : DesktopState) : Prop := (s.windows.map Prod.fst).Nodup

/-- Every assigned zIndex is at most the current counter. -/
def ZBound (s : DesktopState) : Prop :=
  ∀ p ∈ s.windows, ∀ z, p.2.zIndex = some z → z ≤ s.nextZIndex

/-- zIndex values are pairwise distinct across the records of the store. -/
def ZDistinct (s : DesktopState) : Prop :=
  ∀ p ∈ s.windows, ∀ q ∈ s.windows, ∀ z z',
    p.2.zIndex = some z → q.2.zIndex = some z' → p.1 ≠ q.1 → z ≠ z'

/-- When the active id is a record of the store, that record carries a
zIndex and it is maximal among all assigned zIndexes. -/
def ActiveHoldsMaxZ (s : DesktopState) : Prop :=
  ∀ a, s.activeId = some a → ∀ w, getW s.windows a = some w →
    ∃ z, w.zIndex = some z ∧ ∀ p ∈ s.windows, ∀ z', p.2.zIndex = some z' → z' ≤ z

/-- The window-manager invariant carried through the step relation. -/
def WMInv (s : DesktopState) : Prop :=
  NodupKeys s ∧ ZBound s ∧ ZDistinct s ∧ ActiveHoldsMaxZ s

lemma inv_setW_fresh (s : DesktopState) (id : String) (v : WindowObj)
    (hinv : WMInv s) (hz : v.zIndex = some (s.nextZIndex + 1)) :
    WMInv { s with windows := setW s.windows id v, activeId := some id,
                   nextZIndex := s.nextZIndex + 1 } := by
  obtain ⟨hnd, hbound, hdist, _⟩ := hinv
  refine ⟨keys_setW_nodup hnd, ?_, ?_, ?_⟩
  · intro p hp z hpz
    show z ≤ s.nextZIndex + 1
    rcases mem_setW hp with rfl | hpl
    · rw [hz, Option.some.injEq] at hpz
      omega
    · exact Nat.le_succ_of_le (hbound p hpl z hpz)
  · intro p hp q hq z z' hpz hqz hne
    rcases mem_setW_nodup hnd hp with rfl | ⟨hpl, hpk⟩ <;>
      rcases mem_setW_nodup hnd hq with rfl | ⟨hql, hqk⟩
    · exact absurd rfl hne
    · rw [hz, Option.some.injEq] at hpz
      have hq' := hbound q hql z' hqz
      omega
    · rw [hz, Option.some.injEq] at hqz
      have hp' := hbound p hpl z hpz
      omega
    · exact hdist p hpl q hql z z' hpz hqz hne
  · intro a ha w hw
    rw [Option.some.injEq] at ha
    subst ha
    rw [getW_setW_self, Option.some.injEq] at hw
    subst hw
    refine ⟨s.nextZIndex + 1, hz, ?_⟩
    intro p hp z' hpz
    rcases mem_setW hp with rfl | hpl
    · rw [hz, Option.some.injEq] at hpz
      omega
    · exact Nat.le_succ_of_le (hbound p hpl z' hpz)

lemma inv_setW_samez (s : DesktopState) (id : String) (w v : WindowObj)
    (hinv : WMInv s) (hw : getW s.windows id = some w) (hzz : v.zIndex = w.zIndex) :
    WMInv { s with windows := setW s.windows id v } := by
  obtain ⟨hnd, hbound, hdist, hact⟩ := hinv
  have hmemw : (id, w) ∈ s.windows := getW_mem hw
  refine ⟨keys_setW_nodup hnd, ?_, ?_, ?_⟩
  · intro p hp z hpz
    rcases mem_setW hp with rfl | hpl
    · exact hbound (id, w) hmemw z (by rw [← hzz]; exact hpz)
    · exact hbound p hpl z hpz
  · intro p hp q hq z z' hpz hqz hne
    rcases mem_setW_nodup hnd hp with rfl | ⟨hpl, hpk⟩ <;>
      rcases mem_setW_nodup hnd hq with rfl | ⟨hql, hqk⟩
    · exact absurd rfl hne
    · exact hdist (id, w) hmemw q hql z z' (by rw [← hzz]; exact hpz) hqz
        (by simpa using Ne.symm hqk)
    · exact hdist p hpl (id, w) hmemw z z' hpz (by rw [← hzz]; exact hqz)
        (by simpa using hpk)
    · exact hdist p hpl q hql z z' hpz hqz hne
  · intro a ha w' hw'
    by_cases hai : a = id
    · subst hai
      rw [getW_setW_self, Option.some.injEq] at hw'
      subst hw'
      obtain ⟨z, hz, hmax⟩ := hact a ha w hw
      refine ⟨z, by rw [hzz]; exact hz, ?_⟩
      intro p hp z' hpz
      rcases mem_setW hp with rfl | hpl
      · rw [hzz] at hpz
        rw [hz] at hpz
        rw [Option.some.injEq] at hpz
        omega
      · exact hmax p hpl z' hpz
    · rw [getW_setW_ne _ _ _ _ hai] at hw'
      obtain ⟨z, hz, hmax⟩ := hact a ha w' hw'
      refine ⟨z, hz, ?_⟩
      intro p hp z' hpz
      rcases mem_setW hp with rfl | hpl
      · rw [hzz] at hpz
        exact hmax (id, w) hmemw z' hpz
      · exact hmax p hpl z' hpz

lemma open_preserves (s : DesktopState) (id : String) (h : WMInv s) :
    WMInv (openWindow s id) := by
  unfold openWindow
  cases hw : getW s.windows id with
  | none => exact inv_setW_fresh s id _ h rfl
  | some w => exact inv_setW_fresh s id _ h rfl

lemma close_preserves (s : DesktopState) (id : String) (h : WMInv s) :
    WMInv (closeWindow s id) := by
  obtain ⟨hnd, hbound, hdist, hact⟩ := h
  refine ⟨keys_delW_nodup hnd, ?_, ?_, ?_⟩
  · intro p hp z hpz
    exact hbound p (mem_delW.mp hp).1 z hpz
  · intro p hp q hq z z' hpz hqz hne
    exact hdist p (mem_delW.mp hp).1 q (mem_delW.mp hq).1 z z' hpz hqz hne
  · intro a ha w hw
    by_cases hai : a = id
    · subst hai
      rw [show (closeWindow s a).windows = delW s.windows a from rfl,
          getW_delW_self] at hw
      exact absurd hw (by simp)
    · rw [show (closeWindow s id).windows = delW s.windows id from rfl,
          getW_delW_ne _ _ _ hai] at hw
      obtain ⟨z, hz, hmax⟩ := hact a ha w hw
      refine ⟨z, hz, ?_⟩
      intro p hp z' hpz
      exact hmax p (mem_delW.mp hp).1 z' hpz

lemma minimize_preserves (s : DesktopState) (id : String) (w : WindowObj)
    (hw : getW s.windows id = some w) (h : WMInv s) :
    WMInv (minimizeWindow s id) := by
  unfold minimizeWindow
  rw [hw]
  exact inv_setW_samez s id w _ h hw rfl

lemma maximize_preserves (s : DesktopState) (vw vh : Int) (id : String)
    (h : WMInv s) : WMInv (maximizeWindow s vw vh id) := by
  unfold maximizeWindow
  cases hw : getW s.windows id with
  | none => exact h
  | some w => exact inv_setW_samez s id w _ h hw rfl

lemma focus_preserves (s : DesktopState) (id : String) (h : WMInv s) :
    WMInv (focusWindow s id) := by
  unfold focusWindow
  exact inv_setW_fresh s id _ h rfl

/-- One UI event of the window lifecycle: opening any app from the dock or
taskbar, or closing, minimizing, maximize-toggling or focusing a window.
The last three handlers only exist on rendered windows, so they carry the
precondition that the id is a key of the store. -/
inductive Step : DesktopState → DesktopState → Prop
  | openStep (s : DesktopState) (id : String) : Step s (openWindow s id)
  | closeStep (s : DesktopState) (id : String) : Step s (closeWindow s id)
  | minimizeStep (s : DesktopState) (id : String)
      (h : (getW s.windows id).isSome) : Step s (minimizeWindow s id)
  | maximizeStep (s : DesktopState) (vw vh : Int) (id : String)
      (h : (getW s.windows id).isSome) : Step s (maximizeWindow s vw vh id)
  | focusStep (s : DesktopState) (id : String)
      (h : (getW s.windows id).isSome) : Step s (focusWindow s id)

/-- States reachable from the initial DesktopView state by lifecycle
events. -/
def ReachableState (s : DesktopState) : Prop :=
  Relation.ReflTransGen Step initState s

lemma inv_initState : WMInv initState := by
  refine ⟨by simp [NodupKeys, initState], ?_, ?_, ?_⟩
  · intro p hp
    simp [initState] at hp
  · intro p hp
    simp [initState] at hp
  · intro a ha
    simp [initState] at ha

lemma step_preserves (s s' : DesktopState) (hstep : Step s s') (h : WMInv s) :
    WMInv s' := by
  cases hstep with
  | openStep id => exact open_preserves s id h
  | closeStep id => exact close_preserves s id h
  | minimizeStep id hmem =>
      obtain ⟨w, hw⟩ := Option.isSome_iff_exists.mp hmem
      exact minimize_preserves s id w hw h
  | maximizeStep vw vh id hmem => exact maximize_preserves s vw vh id h
  | focusStep id hmem => exact focus_preserves s id h

lemma reachable_inv (s : DesktopState) (h : ReachableState s) : WMInv s := by
  induction h with
  | refl => exact inv_initState
  | tail _ hstep ih => exact step_preserves _ _ hstep ih

/-! Key-set lemmas used for counting windows. -/

lemma keys_setW_toFinset (l : List (String × WindowObj)) (k : String) (v : WindowObj) :
    ((setW l k v).map Prod.fst).toFinset = insert k (l.map Prod.fst).toFinset := by
  induction l with
  | nil => simp [setW]
  | cons p rest ih =>
      obtain ⟨k', w⟩ := p
      by_cases hk : k' = k
      · subst hk
        simp [setW]
      · simp [setW, hk, ih, Finset.Insert.comm]

lemma open_keys_toFinset (s : DesktopState) (id : String) :
    (((openWindow s id).windows).map Prod.fst).toFinset =
      insert id (s.windows.map Prod.fst).toFinset := by
  unfold openWindow
  cases hw : getW s.windows id with
  | none => exact keys_setW_toFinset _ _ _
  | some w => exact keys_setW_toFinset _ _ _

lemma open_nodupKeys (s : DesktopState) (id : String) (h : NodupKeys s) :
    NodupKeys (openWindow s id) := by
  unfold openWindow
  cases hw : getW s.windows id with
  | none => exact keys_setW_nodup h
  | some w => exact keys_setW_nodup h

lemma foldl_open_keys (ops : List String) : ∀ s : DesktopState, NodupKeys s →
    ((((ops.foldl openWindow s).windows).map Prod.fst).toFinset =
        ops.toFinset ∪ (s.windows.map Prod.fst).toFinset) ∧
      NodupKeys (ops.foldl openWindow s) := by
  induction ops with
  | nil =>
      intro s h
      exact ⟨by simp, h⟩
  | cons a rest ih =>
      intro s h
      obtain ⟨hkeys, hnd⟩ := ih (openWindow s a) (open_nodupKeys s a h)
      refine ⟨?_, by rw [List.foldl_cons]; exact hnd⟩
      rw [List.foldl_cons, hkeys, open_keys_toFinset, List.toFinset_cons,
          Finset.union_insert, Finset.insert_union]

/-- The record created by opening the calculator feature on the initial
state, used as a concrete sample in witnesses. -/
def calcRecord : WindowObj :=
  { id := some "calculator", position := some ⟨50, 50⟩, size := some ⟨800, 600⟩,
    zIndex := some 11, isMinimized := some false, isMaximized := some false,
    isResizing := some false, isDragging := some false,
    desktopId := some "desktop-1", opacity := some 1 }

/-! The claims. -/

/-- C1 counterexample: updateWindowState (patch / updateGeometry) on an id
that is not in the store is not a no-op — it changes the store, creating a
record under that id out of the bare update fields. -/
theorem patch_unknown_id_creates_record_cex :
    (updateWindowState initState "calculator" { position := some ⟨1, 2⟩ }).windows ≠
      initState.windows := by decide

/-- C1 amended: patch on a non-existent id is not a no-op and signals
nothing: it inserts a fresh record under that id holding exactly the patched
fields (every other field absent), while every existing record is left
unchanged. -/
theorem patch_unknown_id_inserts_only_new_record (s : DesktopState) (id : String)
    (u : WindowUpdates) (h : getW s.windows id = none) :
    getW (updateWindowState s id u).windows id = some (applyUpdates {} u) ∧
      ∀ k, k ≠ id → getW (updateWindowState s id u).windows k = getW s.windows k := by
  constructor
  · show getW (setW s.windows id (applyUpdates ((getW s.windows id).getD {}) u)) id = _
    rw [h]
    exact getW_setW_self _ _ _
  · intro k hk
    show getW (setW s.windows id (applyUpdates ((getW s.windows id).getD {}) u)) k = _
    exact getW_setW_ne _ _ _ _ hk

theorem patch_unknown_id_inserts_only_new_record_witness :
    getW initState.windows "calculator" = none ∧
      getW (updateWindowState initState "calculator"
          { position := some ⟨1, 2⟩ }).windows "calculator" =
        some (applyUpdates {} { position := some ⟨1, 2⟩ }) :=
  ⟨by decide,
   (patch_unknown_id_inserts_only_new_record initState "calculator"
      { position := some ⟨1, 2⟩ } (by decide)).1⟩

/-- C2: in every state reachable from the initial state by openOrRestore,
close, minimize, maximizeToggle and focus events, the zIndex values of the
stored windows are pairwise distinct, and whenever the active id denotes a
stored window, that window holds the maximum zIndex in use. -/
theorem zindex_distinct_and_active_max (s : DesktopState) (h : ReachableState s) :
    ZDistinct s ∧ ActiveHoldsMaxZ s :=
  ⟨(reachable_inv s h).2.2.1, (reachable_inv s h).2.2.2⟩

theorem zindex_distinct_and_active_max_witness :
    ZDistinct (openWindow initState "calculator") ∧
      ActiveHoldsMaxZ (openWindow initState "calculator") :=
  zindex_distinct_and_active_max (openWindow initState "calculator")
    (Relation.ReflTransGen.single (Step.openStep initState "calculator"))

/-- C3 counterexample: reopening an existing window after a desktop switch
re-pins it to the now-active desktop.  The calculator is created on
desktop-1; after switching to desktop-2, openOrRestore of the same id leaves
its record with desktopId desktop-2, not the desktop-1 it had. -/
theorem reopen_repins_desktop_cex :
    getW (openWindow initState "calculator").windows "calculator" =
        some { id := some "calculator", position := some ⟨50, 50⟩,
               size := some ⟨800, 600⟩, zIndex := some 11,
               isMinimized := some false, isMaximized := some false,
               isResizing := some false, isDragging := some false,
               desktopId := some "desktop-1", opacity := some 1 } ∧
      getW (openWindow (switchDesktop (openWindow initState "calculator") "desktop-2")
          "calculator").windows "calculator" =
        some { id := some "calculator", position := some ⟨50, 50⟩,
               size := some ⟨800, 600⟩, zIndex := some 12,
               isMinimized := some false, isMaximized := some false,
               isResizing := some false, isDragging := some false,
               desktopId := some "desktop-2", opacity := some 1 } ∧
      ("desktop-2" : String) ≠ "desktop-1" := by decide

/-- C3 amended: desktopId is set at creation to the then-active desktop, and
minimize, maximizeToggle, focus and updateGeometry leave it unchanged; but
openOrRestore re-pins the window to the currently active desktop (setting
desktopId to activeDesktopId) rather than leaving it unchanged. -/
theorem desktopId_creation_and_repin (s : DesktopState) (id : String) (vw vh : Int)
    (w : WindowObj) (u : WindowUpdates) (h : getW s.windows id = some w) :
    (getW (openWindow s id).windows id).map WindowObj.desktopId =
        some (some s.activeDesktopId) ∧
      (getW (minimizeWindow s id).windows id).map WindowObj.desktopId =
        some w.desktopId ∧
      (getW (maximizeWindow s vw vh id).windows id).map WindowObj.desktopId =
        some w.desktopId ∧
      (getW (focusWindow s id).windows id).map WindowObj.desktopId =
        some w.desktopId ∧
      (getW (updateWindowState s id u).windows id).map WindowObj.desktopId =
        some w.desktopId := by
  refine ⟨?_, ?_, ?_, ?_, ?_⟩
  · simp only [openWindow, h]
    rw [getW_setW_self]
    rfl
  · simp only [minimizeWindow, h]
    rw [getW_setW_self]
    rfl
  · simp only [maximizeWindow, h]
    rw [getW_setW_self]
    rfl
  · simp only [focusWindow, h]
    rw [getW_setW_self]
    rfl
  · simp only [updateWindowState, h]
    rw [getW_setW_self]
    rfl

theorem desktopId_creation_and_repin_witness :
    getW (openWindow initState "calculator").windows "calculator" = some calcRecord ∧
      (getW (openWindow (openWindow initState "calculator") "calculator").windows
          "calculator").map WindowObj.desktopId =
        some (some (openWindow initState "calculator").activeDesktopId) :=
  ⟨by decide,
   (desktopId_creation_and_repin (openWindow initState "calculator") "calculator"
      1920 1080 calcRecord {} (by decide)).1⟩

/-- C4: maximizeToggle on a non-maximized window sets size to
(viewportWidth, viewportHeight - 60), position to (0, 0) and isMaximized;
on a maximized window it sets the fixed canonical restore geometry
size (800, 600), position (50, 50) and clears isMaximized. -/
theorem maximize_toggle_canonical_geometry (s : DesktopState) (id : String)
    (w : WindowObj) (vw vh : Int) (h : getW s.windows id = some w) :
    (w.isMaximized.getD false = false →
      getW (maximizeWindow s vw vh id).windows id =
        some { w with isMaximized := some true, size := some ⟨vw, vh - 60⟩,
                      position := some ⟨0, 0⟩ }) ∧
    (w.isMaximized.getD false = true →
      getW (maximizeWindow s vw vh id).windows id =
        some { w with isMaximized := some false, size := some ⟨800, 600⟩,
                      position := some ⟨50, 50⟩ }) := by
  constructor
  · intro hm
    simp only [maximizeWindow, h, hm]
    rw [getW_setW_self]
    rfl
  · intro hm
    simp only [maximizeWindow, h, hm]
    rw [getW_setW_self]
    rfl

theorem maximize_toggle_canonical_geometry_witness :
    getW (maximizeWindow (openWindow initState "calculator") 1920 1080
        "calculator").windows "calculator" =
      some { calcRecord with isMaximized := some true, size := some ⟨1920, 1080 - 60⟩,
                             position := some ⟨0, 0⟩ } :=
  (maximize_toggle_canonical_geometry (openWindow initState "calculator") "calculator"
      calcRecord 1920 1080 (by decide)).1 (by decide)

/-- C5 counterexample: after opening calculator and settings and closing
calculator, a third fresh open lands at (70, 70) — the stagger is computed
from the current store size — whereas a fixed (20, 20) cascade from the
previous newly created window (settings, at (70, 70)) would put it at
(90, 90). -/
theorem stagger_after_close_cex :
    getW (openWindow (closeWindow (openWindow (openWindow initState "calculator")
        "settings") "calculator") "document-editor").windows "document-editor" =
      some { id := some "document-editor", position := some ⟨70, 70⟩,
             size := some ⟨800, 600⟩, zIndex := some 13,
             isMinimized := some false, isMaximized := some false,
             isResizing := some false, isDragging := some false,
             desktopId := some "desktop-1", opacity := some 1 } ∧
      (⟨70, 70⟩ : Pos) ≠ ⟨90, 90⟩ := by decide

/-- C5 amended: openOrRestore of a fresh appId creates the window with size
(800, 600) and position (50 + 20n, 50 + 20n) where n is the number of
records currently in the store; with no closes in between, successive fresh
opens cascade from (50, 50) by (20, 20) — but the stagger follows the
current store size, not the previous created window's position, so it can
repeat positions when closes are interleaved. -/
theorem fresh_open_default_geometry (s : DesktopState) (id : String)
    (h : getW s.windows id = none) :
    getW (openWindow s id).windows id =
      some { id := some id,
             position := some ⟨50 + (s.windows.length : Int) * 20,
                               50 + (s.windows.length : Int) * 20⟩,
             size := some ⟨800, 600⟩, zIndex := some (s.nextZIndex + 1),
             isMinimized := some false, isMaximized := some false,
             isResizing := some false, isDragging := some false,
             desktopId := some s.activeDesktopId, opacity := some 1 } := by
  simp only [openWindow, h]
  exact getW_setW_self _ _ _

theorem fresh_open_default_geometry_witness :
    getW initState.windows "calculator" = none ∧
      getW (openWindow initState "calculator").windows "calculator" =
        some calcRecord :=
  ⟨by decide, fresh_open_default_geometry initState "calculator" (by decide)⟩

/-- C6: getVisibleWindows returns exactly the stored records pinned to the
given active desktop and not minimized; and after closing an id, no visible
record carries that id, whatever the active desktop (assuming, as every
program state satisfies, that each record's id field is its store key or
absent). -/
theorem visible_windows_exact_and_closed_absent (s : DesktopState) (id d : String)
    (hwf : ∀ p ∈ s.windows, p.2.id = none ∨ p.2.id = some p.1) :
    (∀ w, w ∈ getVisibleWindows s.windows s.activeDesktopId ↔
        w ∈ s.windows.map Prod.snd ∧ w.isMinimized.getD false = false ∧
          w.desktopId = some s.activeDesktopId) ∧
    (∀ w, w ∈ getVisibleWindows (closeWindow s id).windows d → w.id ≠ some id) := by
  constructor
  · intro w
    simp only [getVisibleWindows, List.mem_filter, Bool.and_eq_true, Bool.not_eq_true',
      beq_iff_eq, and_assoc]
  · intro w hw hid
    simp only [getVisibleWindows, List.mem_filter] at hw
    rcases List.mem_map.mp hw.1 with ⟨p, hp, rfl⟩
    rcases mem_delW.mp hp with ⟨hpl, hpk⟩
    rcases hwf p hpl with h0 | h0
    · rw [h0] at hid
      exact Option.noConfusion hid
    · rw [h0, Option.some.injEq] at hid
      exact hpk hid

theorem visible_windows_exact_and_closed_absent_witness :
    calcRecord ∈ getVisibleWindows (openWindow initState "calculator").windows
      "desktop-1" :=
  ((visible_windows_exact_and_closed_absent (openWindow initState "calculator")
      "calculator" "desktop-1" (by decide)).1 calcRecord).mpr (by decide)

/-- C7 counterexample: a geometry update carrying a negative width and
height is stored verbatim — the resulting size is (-5, -5), which is
negative, so no clamping to a non-negative minimum happens. -/
theorem negative_size_stored_cex :
    getW (updateWindowState (openWindow initState "calculator") "calculator"
        { size := some ⟨-5, -5⟩ }).windows "calculator" =
      some { calcRecord with size := some ⟨-5, -5⟩ } ∧
      ¬((0 : Int) ≤ -5) := by decide

/-- C7 amended: a geometry update with a negative width or height is indeed
not rejected, but the stored size takes exactly the given value — no
clamping of any kind is applied. -/
theorem update_size_stored_verbatim (s : DesktopState) (id : String)
    (u : WindowUpdates) (sz : Size) (hsz : u.size = some sz) :
    (getW (updateWindowState s id u).windows id).map WindowObj.size =
      some (some sz) := by
  show (getW (setW s.windows id (applyUpdates ((getW s.windows id).getD {}) u)) id).map
      WindowObj.size = _
  rw [getW_setW_self]
  simp [applyUpdates, hsz]

theorem update_size_stored_verbatim_witness :
    ({ size := some ⟨-5, -5⟩ } : WindowUpdates).size = some ⟨-5, -5⟩ ∧
      (getW (updateWindowState (openWindow initState "calculator") "calculator"
          { size := some ⟨-5, -5⟩ }).windows "calculator").map WindowObj.size =
        some (some ⟨-5, -5⟩) :=
  ⟨by decide,
   update_size_stored_verbatim (openWindow initState "calculator") "calculator"
      { size := some ⟨-5, -5⟩ } ⟨-5, -5⟩ (by decide)⟩

/-- C8: switching to a desktop id outside the fixed registry is a no-op,
both for VirtualDesktopService.setActiveDesktop (the full service state is
unchanged) and for the DesktopView state fed by its subscription. -/
theorem switch_unknown_desktop_noop (st : VDServiceState) (s : DesktopState)
    (id : String) (hreg : st.desktops = initialDesktops)
    (h : id ∉ initialDesktops.map VirtualDesktop.id) :
    setActiveDesktop st id = st ∧ switchDesktop s id = s := by
  have hany : initialDesktops.any (fun d => d.id == id) = false := by
    rw [List.any_eq_false]
    intro d hd
    simp only [beq_iff_eq]
    intro hdi
    exact h (List.mem_map.mpr ⟨d, hd, hdi⟩)
  constructor
  · unfold setActiveDesktop
    rw [hreg, hany]
    simp
  · unfold switchDesktop
    rw [hany]
    simp

theorem switch_unknown_desktop_noop_witness :
    ("desktop-3" : String) ∉ initialDesktops.map VirtualDesktop.id ∧
      setActiveDesktop { desktops := initialDesktops, activeDesktopId := "desktop-1" }
          "desktop-3" =
        { desktops := initialDesktops, activeDesktopId := "desktop-1" } :=
  ⟨by decide,
   (switch_unknown_desktop_noop
      { desktops := initialDesktops, activeDesktopId := "desktop-1" } initState
      "desktop-3" rfl (by decide)).1⟩

/-- C9: for any sequence of openOrRestore calls starting from the empty
store, the number of window records equals the number of distinct appIds in
the sequence — reopening an existing appId never duplicates a record. -/
theorem open_count_eq_distinct_appIds (ops : List String) :
    ((ops.foldl openWindow initState).windows).length = ops.toFinset.card := by
  obtain ⟨hkeys, hnd⟩ := foldl_open_keys ops initState (by simp [NodupKeys, initState])
  have h1 : ((ops.foldl openWindow initState).windows).length =
      (((ops.foldl openWindow initState).windows).map Prod.fst).length :=
    (List.length_map _ _).symm
  rw [h1, ← List.toFinset_card_of_nodup hnd, hkeys]
  simp [initState]

/-- C10: openOrRestore on an already-present id keeps the record's position
and size (and every field except isMinimized, zIndex and desktopId), leaves
every other record untouched, and makes the id active. -/
theorem reopen_preserves_geometry (s : DesktopState) (id : String) (w : WindowObj)
    (h : getW s.windows id = some w) :
    getW (openWindow s id).windows id =
        some { w with isMinimized := some false, zIndex := some (s.nextZIndex + 1),
                      desktopId := some s.activeDesktopId } ∧
      (∀ k, k ≠ id → getW (openWindow s id).windows k = getW s.windows k) ∧
      (openWindow s id).activeId = some id := by
  refine ⟨?_, ?_, rfl⟩
  · simp only [openWindow, h]
    exact getW_setW_self _ _ _
  · intro k hk
    simp only [openWindow, h]
    exact getW_setW_ne _ _ _ _ hk

theorem reopen_preserves_geometry_witness :
    getW (openWindow (openWindow initState "calculator") "calculator").windows
        "calculator" =
      some { calcRecord with isMinimized := some false, zIndex := some 12,
                             desktopId := some "desktop-1" } :=
  (reopen_preserves_geometry (openWindow initState "calculator") "calculator"
      calcRecord (by decide)).1

end Atlas
